/-
Verification of the ironclaw repository's core components against its
natural-language specification.

Shallow embedding of:
  * `scholarly-assistant/mcp_http_wrapper.py` — `McpHttpWrapper.handle_request`,
    the HTTP → stdio JSON-RPC bridge;
  * `sdk/python/ironclaw_tools.py` — the job-side tool-calling client;
  * `scholarly-assistant/test_http_wrapper.py` — `MockMcpServer.handle_request`,
    the reference backend;
  * `scripts/update_feature_parity.py` — the markdown auto-block updater.

Machine integers do not arise (Python integers are unbounded); JSON numbers
are modelled as `Int` (floating-point payloads are outside every claim).
I/O is modelled by passing the observable outcome of each effect (the body
parse result, the spawned process outcome, the network response) as an
explicit argument, and fallible steps return `Except`/`Option`.
-/
import Mathlib

set_option maxRecDepth 4000

/-! ## JSON values

A JSON value as produced by Python's `json.loads`.  Objects keep insertion
order, as Python dicts do; numbers are modelled as integers (no claim
involves floats). -/

inductive Json where
  | null
  | bool (b : Bool)
  | num (n : Int)
  | str (s : String)
  | arr (xs : List Json)
  | obj (fields : List (String × Json))

/-- Key lookup in a JSON object's field list (Python `dict.__getitem__` /
`dict.get`; dict keys are unique, so first match suffices). -/
def lookupField : List (String × Json) → String → Option Json
  | [], _ => none
  | (k, v) :: rest, key => if k = key then some v else lookupField rest key

/-! ## Bridge: `McpHttpWrapper` (mcp_http_wrapper.py) -/

/-- The wrapper object's state: `self.command`, `self.args`,
`self.working_dir`, set in `__init__` and never reassigned. -/
structure McpHttpWrapper where
  command : String
  args : List String
  working_dir : Option String

/-- Outcome of `await request.json()`: either the body parsed to a JSON
value, or the parse raised (message of the exception). -/
inductive BodyParse where
  | failed (exnMsg : String)
  | parsed (data : Json)

/-- Observable outcome of the spawned process: its exit code, the decoded
diagnostic-stream (stderr) text, and the result of `json.loads` applied to
the decoded standard-output bytes (`json.loads` is modelled by its outcome:
the parsed value, or the decode error's description). -/
structure ProcOutcome where
  returncode : Int
  stderr : String
  stdoutParse : Except String Json

/-- Outcome of the `create_subprocess_exec` + `communicate` step: either it
raised an exception (message), or it yielded a process outcome. -/
inductive SpawnResult where
  | exn (msg : String)
  | ok (out : ProcOutcome)

/-- One invocation's environment: the inbound body parse outcome and the
behaviour of the subprocess step if it is reached. -/
structure HandleInput where
  body : BodyParse
  spawn : SpawnResult

/-- An HTTP response as produced by `web.json_response`. -/
structure HttpResponse where
  status : Nat
  body : Json

/-- Result of one `handle_request` call: the wrapper object afterwards
(the method never assigns to `self`), the single HTTP response, and the
number of times `create_subprocess_exec` was invoked. -/
structure HandleResult where
  wrapper : McpHttpWrapper
  response : HttpResponse
  spawned : Nat

/-- Python attribute access `data.get("id")` on the parsed JSON value.
On a dict it returns the value under `"id"` (or `None`, i.e. JSON null,
when absent); on any other value it raises `AttributeError` with CPython's
message text. -/
def pyGetId : Json → Except String Json
  | .obj fs => .ok ((lookupField fs "id").getD .null)
  | .null => .error "'NoneType' object has no attribute 'get'"
  | .bool _ => .error "'bool' object has no attribute 'get'"
  | .num _ => .error "'int' object has no attribute 'get'"
  | .str _ => .error "'str' object has no attribute 'get'"
  | .arr _ => .error "'list' object has no attribute 'get'"

/-- A JSON-RPC error body as built by `handle_request`: with an `id` key
(the two inner error returns) or without one (the outer `except` handler). -/
def errBody (id? : Option Json) (code : Int) (message : String) : Json :=
  match id? with
  | some i =>
      .obj [("jsonrpc", .str "2.0"), ("id", i),
            ("error", .obj [("code", .num code), ("message", .str message)])]
  | none =>
      .obj [("jsonrpc", .str "2.0"),
            ("error", .obj [("code", .num code), ("message", .str message)])]

/-- `McpHttpWrapper.handle_request`.  Control flow of the source:
body parse failure or any exception raised before a response is returned
(including the `AttributeError` from `data.get` on a non-dict body) lands in
the outer `except`, which answers HTTP 500 code -32603 without an `id`; a
non-zero exit answers HTTP 500 code -32603 with the stderr text (or
`"Process failed"` when the captured stderr bytes are empty); a zero exit
answers HTTP 200 with the parsed stdout, or HTTP 500 code -32700 when
stdout does not parse. -/
def McpHttpWrapper.handle_request (w : McpHttpWrapper) (inp : HandleInput) :
    HandleResult :=
  match inp.body with
  | .failed e => ⟨w, ⟨500, errBody none (-32603) e⟩, 0⟩
  | .parsed data =>
    -- `create_subprocess_exec` is invoked exactly once from here on.
    match inp.spawn with
    | .exn e => ⟨w, ⟨500, errBody none (-32603) e⟩, 1⟩
    | .ok out =>
      if out.returncode ≠ 0 then
        let error_msg := if out.stderr ≠ "" then out.stderr else "Process failed"
        match pyGetId data with
        | .ok idv => ⟨w, ⟨500, errBody (some idv) (-32603) error_msg⟩, 1⟩
        | .error e => ⟨w, ⟨500, errBody none (-32603) e⟩, 1⟩
      else
        match out.stdoutParse with
        | .ok response => ⟨w, ⟨200, response⟩, 1⟩
        | .error pe =>
          match pyGetId data with
          | .ok idv => ⟨w, ⟨500, errBody (some idv) (-32700) ("Parse error: " ++ pe)⟩, 1⟩
          | .error e => ⟨w, ⟨500, errBody none (-32603) e⟩, 1⟩

/-- The `error.message` string of a JSON-RPC error body, when present. -/
def errMessageOf (r : HttpResponse) : Option String :=
  match r.body with
  | .obj fs =>
    match lookupField fs "error" with
    | some (.obj efs) =>
      match lookupField efs "message" with
      | some (.str s) => some s
      | _ => none
    | _ => none
  | _ => none

/-- The `error.code` integer of a JSON-RPC error body, when present. -/
def errCodeOf (r : HttpResponse) : Option Int :=
  match r.body with
  | .obj fs =>
    match lookupField fs "error" with
    | some (.obj efs) =>
      match lookupField efs "code" with
      | some (.num n) => some n
      | _ => none
    | _ => none
  | _ => none

/-- The top-level `id` field of a response body, when the key is present. -/
def idFieldOf (r : HttpResponse) : Option Json :=
  match r.body with
  | .obj fs => lookupField fs "id"
  | _ => none

/-! ## Job-side client: `ironclaw_tools.py` -/

/-- The process environment: `os.environ.get`. -/
def Env : Type := String → Option String

/-- The message raised by `_env` for a missing variable. -/
def missingEnvMsg (name : String) : String :=
  "Missing required environment variable: " ++ name ++
    ". This SDK must be run inside an IronClaw container."

/-- `_env(name)`: get a required environment variable; `if not value` treats
both an unset variable and an empty string as missing. -/
def _env (env : Env) (name : String) : Except String String :=
  match env name with
  | none => .error (missingEnvMsg name)
  | some value => if value = "" then .error (missingEnvMsg name) else .ok value

/-- Python `str.rstrip("/")`: remove all trailing slash characters. -/
def rstripSlash (s : String) : String :=
  ⟨(s.data.reverse.dropWhile (· = '/')).reverse⟩

/-- `_base_url()`: `{orchestrator url rstripped}/worker/{job_id}`. -/
def _base_url (env : Env) : Except String String := do
  let orchestrator ← _env env "IRONCLAW_ORCHESTRATOR_URL"
  let job_id ← _env env "IRONCLAW_JOB_ID"
  .ok (rstripSlash orchestrator ++ "/worker/" ++ job_id)

/-- `_token()`: the bearer token. -/
def _token (env : Env) : Except String String :=
  _env env "IRONCLAW_WORKER_TOKEN"

/-- The JSON body `call_tool` serialises and posts. -/
structure RequestBody where
  tool_name : String
  parameters : List (String × Json)
  timeout_secs : Option Int

/-- The outgoing HTTP request handed to `urllib.request.urlopen`. -/
structure ToolRequest where
  url : String
  body : RequestBody
  authHeader : String
  urlopenTimeout : Int

/-- `(timeout_secs or 60) + 5`: the transport-layer timeout passed to
`urlopen` (Python `or` treats `None` and `0` as falsy). -/
def urlopenTimeoutOf (timeout_secs : Option Int) : Int :=
  (match timeout_secs with
   | none => 60
   | some t => if t = 0 then 60 else t) + 5

/-- Everything `call_tool` does before touching the network: resolve the
environment, build the URL, body and headers.  An `.error` is a raise that
happens before any network request. -/
def makeRequest (env : Env) (name : String) (params : Option (List (String × Json)))
    (timeout_secs : Option Int) : Except String ToolRequest := do
  let base ← _base_url env
  let url := base ++ "/tools/call"
  let body : RequestBody :=
    { tool_name := name
      parameters := params.getD []   -- `params or {}`
      timeout_secs := timeout_secs.map (fun t => min t 300) }
  let token ← _token env
  .ok ⟨url, body, "Bearer " ++ token, urlopenTimeoutOf timeout_secs⟩

/-- Observable outcome of `urlopen` on the single request: a transport
failure (`urllib.error.URLError`, carrying its `reason`), an HTTP error
status (`urllib.error.HTTPError`, carrying code and decoded body text), or
a success whose body parsed as the JSON object `result` (the orchestrator's
wire contract answers JSON objects; `json.loads` is modelled by its
outcome). -/
inductive NetOutcome where
  | urlError (reason : String)
  | httpError (code : Nat) (bodyText : String)
  | ok (result : List (String × Json))

/-- Result of `call_tool`: a raised error's message, or the returned value
of `result.get("output", "")`. -/
inductive CallResult where
  | raised (msg : String)
  | returned (output : Json)

/-- Python truthiness of `result.get("success")`. -/
def pyTruthy : Option Json → Bool
  | none => false
  | some .null => false
  | some (.bool b) => b
  | some (.num n) => n != 0
  | some (.str s) => s != ""
  | some (.arr xs) => !xs.isEmpty
  | some (.obj fs) => !fs.isEmpty

/-- Python `str()` of a JSON value, as interpolated by an f-string.
Container `repr` is modelled without escaping (no claim exercises strings
that would need Python quote-escaping). -/
def jsonToPyStr : Json → String
  | .null => "None"
  | .bool b => if b then "True" else "False"
  | .num n => toString n
  | .str s => s
  | .arr _ => "[...]"
  | .obj _ => "\x7b...\x7d"

/-- `result.get('error', 'unknown error')` as rendered into the f-string. -/
def serverErrText (result : List (String × Json)) : String :=
  match lookupField result "error" with
  | none => "unknown error"
  | some v => jsonToPyStr v

/-- `call_tool(name, params, timeout_secs)`.  Returns the call's outcome
together with the number of network requests performed (the source performs
at most one `urlopen`, with no retry). -/
def call_tool (env : Env) (name : String) (params : Option (List (String × Json)))
    (timeout_secs : Option Int) (net : ToolRequest → NetOutcome) :
    CallResult × Nat :=
  match makeRequest env name params timeout_secs with
  | .error e => (.raised e, 0)
  | .ok req =>
    match net req with
    | .httpError code bodyText =>
        (.raised ("Tool call failed: HTTP " ++ toString code ++ ": " ++ bodyText), 1)
    | .urlError reason =>
        (.raised ("Connection to orchestrator failed: " ++ reason), 1)
    | .ok result =>
        if pyTruthy (lookupField result "success") then
          (.returned ((lookupField result "output").getD (.str "")), 1)
        else
          (.raised ("Tool '" ++ name ++ "' failed: " ++ serverErrText result), 1)

/-- `shell(command, timeout_secs=60)`. -/
def shell (env : Env) (command : String) (timeout_secs : Int)
    (net : ToolRequest → NetOutcome) : CallResult × Nat :=
  call_tool env "shell" (some [("command", .str command)]) (some timeout_secs) net

/-- `read_file(path)`. -/
def read_file (env : Env) (path : String) (net : ToolRequest → NetOutcome) :
    CallResult × Nat :=
  call_tool env "read_file" (some [("path", .str path)]) none net

/-- `write_file(path, content)`. -/
def write_file (env : Env) (path content : String) (net : ToolRequest → NetOutcome) :
    CallResult × Nat :=
  call_tool env "write_file" (some [("path", .str path), ("content", .str content)]) none net

/-- `http_get(url, headers=None, timeout_secs=30)`; `if headers:` is falsy
for both `None` and an empty dict. -/
def http_get (env : Env) (url : String) (headers : Option (List (String × Json)))
    (timeout_secs : Int) (net : ToolRequest → NetOutcome) : CallResult × Nat :=
  let params := [("url", Json.str url), ("method", Json.str "GET")]
  let params :=
    match headers with
    | some hs => if hs.isEmpty then params else params ++ [("headers", Json.obj hs)]
    | none => params
  call_tool env "http" (some params) (some timeout_secs) net

/-- Whether `_env` would treat a variable as missing. -/
def missingEnv (env : Env) (name : String) : Bool :=
  match env name with
  | none => true
  | some v => v = ""

/-- The three required connection parameters, in the order the source
resolves them. -/
def requiredVars : List String :=
  ["IRONCLAW_ORCHESTRATOR_URL", "IRONCLAW_JOB_ID", "IRONCLAW_WORKER_TOKEN"]

/-! ## Reference backend: `MockMcpServer` (test_http_wrapper.py) -/

/-- Indentation: `n` space characters. -/
def spaces (n : Nat) : String := ⟨List.replicate n ' '⟩

/-- JSON string escaping as performed by `json.dumps` (the escapes that can
occur in the mock payloads; `\uXXXX` escaping of other control characters is
not exercised by any claim). -/
def jsonEscapeChar (c : Char) : String :=
  if c = '\\' then "\\\\"
  else if c = '"' then "\\\""
  else if c = '\n' then "\\n"
  else if c = '\t' then "\\t"
  else if c = '\r' then "\\r"
  else String.singleton c

def jsonEscape (s : String) : String := String.join (s.data.map jsonEscapeChar)

mutual

/-- `json.dumps(value, indent=2)`, where `lvl` is the indentation depth of
the enclosing construct's closing bracket. -/
def dumps2 : Nat → Json → String
  | _, .null => "null"
  | _, .bool b => if b then "true" else "false"
  | _, .num n => toString n
  | _, .str s => "\"" ++ jsonEscape s ++ "\""
  | _, .arr [] => "[]"
  | lvl, .arr (x :: xs) =>
      "[\n" ++ dumpsElems (lvl + 2) (x :: xs) ++ "\n" ++ spaces lvl ++ "]"
  | _, .obj [] => "\x7b\x7d"
  | lvl, .obj (f :: fs) =>
      "\x7b\n" ++ dumpsFields (lvl + 2) (f :: fs) ++ "\n" ++ spaces lvl ++ "\x7d"

def dumpsElems : Nat → List Json → String
  | _, [] => ""
  | lvl, [x] => spaces lvl ++ dumps2 lvl x
  | lvl, x :: y :: xs => spaces lvl ++ dumps2 lvl x ++ ",\n" ++ dumpsElems lvl (y :: xs)

def dumpsFields : Nat → List (String × Json) → String
  | _, [] => ""
  | lvl, [(k, v)] => spaces lvl ++ "\"" ++ jsonEscape k ++ "\": " ++ dumps2 lvl v
  | lvl, (k, v) :: g :: fs =>
      spaces lvl ++ "\"" ++ jsonEscape k ++ "\": " ++ dumps2 lvl v ++ ",\n" ++
        dumpsFields lvl (g :: fs)

end

/-- The mock stdio MCP server, parameterised by its name. -/
structure MockMcpServer where
  name : String

/-- A `{"type": ..., "description": ...}` schema property. -/
def schemaProp (ty d : String) : Json :=
  .obj [("type", .str ty), ("description", .str d)]

/-- `MockMcpServer._get_tools`: tool definitions based on server type. -/
def MockMcpServer._get_tools (s : MockMcpServer) : List Json :=
  if s.name = "semantic_scholar" then
    [ .obj [("name", .str "search_papers"),
            ("description", .str "Search for papers in Semantic Scholar"),
            ("inputSchema", .obj
              [("type", .str "object"),
               ("properties", .obj
                 [("query", schemaProp "string" "Search query"),
                  ("year", schemaProp "string" "Year or year range"),
                  ("limit", schemaProp "number" "Max results")]),
               ("required", .arr [.str "query"])])],
      .obj [("name", .str "get_paper_details"),
            ("description", .str "Get detailed information about a paper"),
            ("inputSchema", .obj
              [("type", .str "object"),
               ("properties", .obj
                 [("paper_id", schemaProp "string" "Semantic Scholar paper ID")]),
               ("required", .arr [.str "paper_id"])])] ]
  else if s.name = "arxiv" then
    [ .obj [("name", .str "search_papers"),
            ("description", .str "Search arXiv papers"),
            ("inputSchema", .obj
              [("type", .str "object"),
               ("properties", .obj
                 [("query", schemaProp "string" "Search query"),
                  ("max_results", schemaProp "number" "Max results")]),
               ("required", .arr [.str "query"])])],
      .obj [("name", .str "download_paper"),
            ("description", .str "Download a paper by arXiv ID"),
            ("inputSchema", .obj
              [("type", .str "object"),
               ("properties", .obj
                 [("arxiv_id", schemaProp "string" "arXiv ID")]),
               ("required", .arr [.str "arxiv_id"])])] ]
  else []

/-- Python `==` between a JSON value and a string literal: true only when
the value is that string. -/
def isJStr : Json → String → Bool
  | .str s, t => s = t
  | _, _ => false

/-- `MockMcpServer._execute_tool`: mock tool execution. -/
def MockMcpServer._execute_tool (s : MockMcpServer) (tool_name : Json)
    (_arguments : Json) : Json :=
  if s.name = "semantic_scholar" && isJStr tool_name "search_papers" then
    .obj [("papers", .arr
            [ .obj [("paperId", .str "abc123"),
                    ("title", .str "Attention Is All You Need"),
                    ("authors", .arr [.str "Vaswani et al."]),
                    ("year", .num 2017),
                    ("citationCount", .num 85000),
                    ("abstract", .str "The dominant sequence transduction models...")],
              .obj [("paperId", .str "def456"),
                    ("title", .str "BERT: Pre-training of Deep Bidirectional Transformers"),
                    ("authors", .arr [.str "Devlin et al."]),
                    ("year", .num 2018),
                    ("citationCount", .num 65000),
                    ("abstract", .str "We introduce a new language representation model...")] ]),
          ("total", .num 2)]
  else if s.name = "arxiv" && isJStr tool_name "search_papers" then
    .obj [("papers", .arr
            [ .obj [("id", .str "2401.12345"),
                    ("title", .str "Latest Advances in Transformers"),
                    ("authors", .arr [.str "Smith, J.", .str "Doe, J."]),
                    ("published", .str "2024-01-15"),
                    ("summary", .str "We present recent improvements to transformer architecture...")] ]),
          ("total", .num 1)]
  else
    .obj [("error", .str ("Unknown tool: " ++ jsonToPyStr tool_name))]

/-- f-string rendering of `request.get("method")` (which may be `None`). -/
def pyStrOpt : Option Json → String
  | none => "None"
  | some j => jsonToPyStr j

/-- `request.get(key) == lit` for a string literal `lit`. -/
def methodIs (m : Option Json) (lit : String) : Bool :=
  match m with
  | some j => isJStr j lit
  | none => false

/-- `MockMcpServer.handle_request`: dispatch on `request.get("method")`;
any unrecognized method falls through to the `-32601` error with message
`"Unknown method: <method>"` and the inbound id echoed.  (`tools/call` with
a non-dict `params` value would raise in Python; no claim reaches that
corner and the dict case is modelled.) -/
def MockMcpServer.handle_request (s : MockMcpServer)
    (request : List (String × Json)) : Json :=
  let method := lookupField request "method"
  let request_id := (lookupField request "id").getD .null
  if methodIs method "initialize" then
    .obj [("jsonrpc", .str "2.0"), ("id", request_id),
          ("result", .obj
            [("protocolVersion", .str "2024-11-05"),
             ("capabilities", .obj [("tools", .obj [])]),
             ("serverInfo", .obj [("name", .str s.name), ("version", .str "0.1.0")])])]
  else if methodIs method "tools/list" then
    .obj [("jsonrpc", .str "2.0"), ("id", request_id),
          ("result", .obj [("tools", .arr s._get_tools)])]
  else if methodIs method "tools/call" then
    let params := (lookupField request "params").getD (.obj [])
    let pfs := match params with | .obj pfs => pfs | _ => []
    let tool_name := (lookupField pfs "name").getD .null
    let arguments := (lookupField pfs "arguments").getD (.obj [])
    let result := s._execute_tool tool_name arguments
    .obj [("jsonrpc", .str "2.0"), ("id", request_id),
          ("result", .obj
            [("content", .arr
              [.obj [("type", .str "text"), ("text", .str (dumps2 0 result))]])])]
  else
    .obj [("jsonrpc", .str "2.0"), ("id", request_id),
          ("error", .obj
            [("code", .num (-32601)),
             ("message", .str ("Unknown method: " ++ pyStrOpt method))])]

/-! ## Markdown auto-block updater: `update_feature_parity.py`

Text is modelled as `List Char` so that the regex-substitution and
line-splitting logic can be stated and evaluated structurally. -/

/-- `START_MARKER`. -/
def START : List Char := "<!-- parity:auto:start -->".data

/-- `END_MARKER`. -/
def ENDM : List Char := "<!-- parity:auto:end -->".data

/-- `build_auto_block` minus its leading `START_MARKER` and trailing
`END_MARKER ++ "\n"`: the text between the markers. -/
def autoMid (sync_sha pr_number : List Char) : List Char :=
  "\n> Auto-synced for PR #".data ++ pr_number ++ " at commit `".data ++ sync_sha ++
    "`.\n> Managed by `.github/workflows/update-feature-parity.yml`.\n".data

/-- `build_auto_block(sync_sha, pr_number)`. -/
def build_auto_block (sync_sha pr_number : List Char) : List Char :=
  START ++ autoMid sync_sha pr_number ++ ENDM ++ "\n".data

/-- Leftmost index at which `pat` occurs in `s` (Python `re` literal
search). -/
def findIdx (pat : List Char) : List Char → Option Nat
  | [] => if pat.isEmpty then some 0 else none
  | c :: tl =>
    if pat.isPrefixOf (c :: tl) then some 0
    else (findIdx pat tl).map (· + 1)

/-- Leftmost match of the pattern
`re.escape(START_MARKER) + r".*?" + re.escape(END_MARKER) + "\n?"` with
`re.DOTALL`: at each candidate position the engine requires the literal
`START`, then the lazy `.*?` stops at the first later `END`, and the
greedy `\n?` consumes a following newline when present.  Returns the
half-open span `(start, stop)` of the match. -/
def scanPat : List Char → Option (Nat × Nat)
  | [] => none
  | c :: tl =>
    if START.isPrefixOf (c :: tl) then
      match findIdx ENDM ((c :: tl).drop START.length) with
      | some j =>
        let stop := START.length + j + ENDM.length
        some (0, if ((c :: tl).drop stop).head? = some '\n' then stop + 1 else stop)
      | none => (scanPat tl).map (fun p => (p.1 + 1, p.2 + 1))
    else (scanPat tl).map (fun p => (p.1 + 1, p.2 + 1))

/-- `pattern.search(content)` for the auto-block pattern. -/
def findPat (s : List Char) : Option (Nat × Nat) := scanPat s

/-- The line-break set of Python `str.splitlines`. -/
def isLineBreak (c : Char) : Bool :=
  c = '\n' || c = '\r' || c = '\x0b' || c = '\x0c' ||
  c = '\x1c' || c = '\x1d' || c = '\x1e' || c = '\u0085' ||
  c = ' ' || c = ' '

/-- `content.splitlines(keepends=True)`: `acc` holds the current line's
characters in reverse; `"\r\n"` is a single line boundary. -/
def splitlinesAux (acc : List Char) : List Char → List (List Char)
  | [] => if acc.isEmpty then [] else [acc.reverse]
  | '\r' :: '\n' :: tl2 => (acc.reverse ++ ['\r', '\n']) :: splitlinesAux [] tl2
  | c :: tl =>
    if c = '\r' then (acc.reverse ++ ['\r']) :: splitlinesAux [] tl
    else if isLineBreak c then (acc.reverse ++ [c]) :: splitlinesAux [] tl
    else splitlinesAux (c :: acc) tl

def splitlinesKeep (s : List Char) : List (List Char) := splitlinesAux [] s

/-- The whitespace set of Python `str.strip()` (`str.isspace`). -/
def isPySpace (c : Char) : Bool :=
  c = ' ' || c = '\t' || c = '\n' || c = '\r' || c = '\x0b' || c = '\x0c' ||
  c = '\x1c' || c = '\x1d' || c = '\x1e' || c = '\x1f' || c = '\u0085' ||
  c = ' ' || c = ' ' || c = ' ' || c = ' ' || c = ' ' ||
  c = ' ' || c = ' ' || c = ' ' || c = ' ' || c = ' ' ||
  c = ' ' || c = ' ' || c = ' ' || c = ' ' || c = ' ' ||
  c = ' ' || c = ' ' || c = '　'

/-- `line.strip() == ""`. -/
def isBlankLine (line : List Char) : Bool := line.all isPySpace

/-- The `for idx, line in enumerate(lines): if line.startswith("# "): break`
loop: index of the first top-level title line. -/
def findTitleIndex : List (List Char) → Option Nat
  | [] => none
  | line :: rest =>
    if ("# ".data).isPrefixOf line then some 0
    else (findTitleIndex rest).map (· + 1)

/-- `insert_block_after_title(content, block)`. -/
def insert_block_after_title (content block : List Char) : List Char :=
  let lines := splitlinesKeep content
  match findTitleIndex lines with
  | none => if content.isEmpty then block else block ++ '\n' :: content
  | some title_index =>
    let insert_at :=
      if title_index + 1 < lines.length ∧
          isBlankLine (lines.getD (title_index + 1) []) then
        title_index + 2
      else title_index + 1
    (List.insertIdx insert_at ('\n' :: (block ++ ['\n'])) lines).flatten

/-- `update_content(content, sync_sha, pr_number)`: replace the first match
of the auto-block pattern with the freshly built block, or insert the block
below the title when there is no match.  (The replacement text contains no
backslash, so `re.sub` template expansion is plain insertion.) -/
def update_content (content sync_sha pr_number : List Char) : List Char :=
  let block := build_auto_block sync_sha pr_number
  match findPat content with
  | some (a, b) => content.take a ++ block ++ content.drop b
  | none => insert_block_after_title content block

/-! ## Claims about the bridge (C1–C5) -/

/-- A wrapper instance (Semantic Scholar backend descriptor) used for
concrete evaluations. -/
def w0 : McpHttpWrapper := ⟨"python", ["semantic_scholar_server.py"], none⟩

/-- Inbound body `[]` (valid JSON, not an object), process exits 1 with
stderr text `"boom"`. -/
def cexInput1 : HandleInput := ⟨.parsed (.arr []), .ok ⟨1, "boom", .ok .null⟩⟩

/-- C1 counterexample: for the inbound body `[]` — which parses as JSON —
and a backend exiting 1 with non-empty stderr `"boom"`, the bridge's error
message is not the stderr text: building the error dict evaluates
`data.get("id")`, which raises `AttributeError` on a list, so the outer
handler answers with the exception's message instead. -/
theorem bridge_nonzero_exit_message_cex :
    (w0.handle_request cexInput1).response.status = 500 ∧
    errMessageOf (w0.handle_request cexInput1).response ≠ some "boom" ∧
    errMessageOf (w0.handle_request cexInput1).response =
      some "'list' object has no attribute 'get'" := by
  decide

/-- C1 (amended: the inbound body parses as a JSON *object*): if the
backend exits non-zero, the bridge answers HTTP 500 with a JSON-RPC error
of code -32603 whose message is the stderr text when non-empty and
`"Process failed"` otherwise, and whose `id` equals the inbound `id`
(JSON null when the request has none). -/
theorem bridge_nonzero_exit_object (w : McpHttpWrapper)
    (fs : List (String × Json)) (out : ProcOutcome)
    (h : out.returncode ≠ 0) :
    (w.handle_request ⟨.parsed (.obj fs), .ok out⟩).response =
      ⟨500, errBody (some ((lookupField fs "id").getD .null)) (-32603)
        (if out.stderr ≠ "" then out.stderr else "Process failed")⟩ := by
  simp only [McpHttpWrapper.handle_request, pyGetId]
  rw [if_pos h]

/-- Witness for C1: inbound `{"id": 7}`, exit code 1, stderr `"boom"`. -/
theorem bridge_nonzero_exit_object_witness :
    (w0.handle_request ⟨.parsed (.obj [("id", .num 7)]), .ok ⟨1, "boom", .ok .null⟩⟩).response =
      ⟨500, errBody (some (.num 7)) (-32603) "boom"⟩ := by
  have h := bridge_nonzero_exit_object w0 [("id", .num 7)] ⟨1, "boom", .ok .null⟩
    (by decide)
  simpa [lookupField] using h

/-- Inbound body `[]`, process exits 0 but stdout does not parse. -/
def cexInput2 : HandleInput :=
  ⟨.parsed (.arr []), .ok ⟨0, "", .error "Expecting value: line 1 column 1 (char 0)"⟩⟩

/-- C2 counterexample: for the inbound body `[]` — which parses as JSON —
and a backend exiting 0 with non-JSON output, the error code is not -32700:
`data.get("id")` raises on a list while the -32700 dict is being built, and
the outer handler answers -32603. -/
theorem bridge_parse_error_code_cex :
    errCodeOf (w0.handle_request cexInput2).response ≠ some (-32700) ∧
    errCodeOf (w0.handle_request cexInput2).response = some (-32603) := by
  decide

/-- C2 (amended: the inbound body parses as a JSON *object*): if the
backend exits 0 but its stdout does not parse as JSON, the bridge answers
HTTP 500 with a JSON-RPC error of code -32700 whose message contains the
parser's error description, and whose `id` equals the inbound `id`. -/
theorem bridge_parse_error_object (w : McpHttpWrapper)
    (fs : List (String × Json)) (serr pe : String) :
    (w.handle_request ⟨.parsed (.obj fs), .ok ⟨0, serr, .error pe⟩⟩).response =
      ⟨500, errBody (some ((lookupField fs "id").getD .null)) (-32700)
        ("Parse error: " ++ pe)⟩ := by
  simp [McpHttpWrapper.handle_request, pyGetId]

/-- C3: whenever the backend exits 0 and its stdout parses as JSON, the
bridge answers HTTP 200 with exactly the parsed value — for every inbound
JSON body (object or not; the success path never touches `data.get`) and
regardless of stderr. -/
theorem bridge_success_verbatim (w : McpHttpWrapper) (data response : Json)
    (serr : String) :
    (w.handle_request ⟨.parsed data, .ok ⟨0, serr, .ok response⟩⟩).response =
      ⟨200, response⟩ := by
  simp [McpHttpWrapper.handle_request]

/-- Inbound `{"id": 1}` parses, then the spawn step raises. -/
def cexInput4 : HandleInput := ⟨.parsed (.obj [("id", .num 1)]), .exn "spawn failed"⟩

/-- C4 counterexample: the inbound payload `{"id": 1}` is parseable, an
exception is raised before a process outcome is known, yet the response
body carries no `id` key at all — the catch-all handler never echoes the
inbound id. -/
theorem bridge_midway_exception_id_cex :
    idFieldOf (w0.handle_request cexInput4).response ≠ some (.num 1) := by
  intro h
  exact Option.noConfusion h

/-- C4 (amended): when the body parsed but an exception is raised before a
process outcome is known, the bridge answers HTTP 500 with a -32603 error
carrying the exception's message and *no* `id` field, whether or not the
inbound payload was parseable. -/
theorem bridge_midway_exception_omits_id (w : McpHttpWrapper) (data : Json)
    (e : String) :
    (w.handle_request ⟨.parsed data, .exn e⟩).response =
      ⟨500, errBody none (-32603) e⟩ ∧
    idFieldOf (w.handle_request ⟨.parsed data, .exn e⟩).response = none := by
  exact ⟨rfl, rfl⟩

/-- C5: each call leaves the wrapper object unchanged (no cross-request
state), invokes `create_subprocess_exec` at most once, and exactly once
whenever the inbound body parses as JSON (the spawn step is reached);
producing exactly one HTTP response is the return type of
`McpHttpWrapper.handle_request`. -/
theorem bridge_one_spawn_stateless (w : McpHttpWrapper) (inp : HandleInput) :
    (w.handle_request inp).wrapper = w ∧
    (w.handle_request inp).spawned ≤ 1 ∧
    ∀ (data : Json) (s : SpawnResult),
      (w.handle_request ⟨.parsed data, s⟩).spawned = 1 := by
  refine ⟨?_, ?_, fun data s => ?_⟩
  · obtain ⟨b, s⟩ := inp
    cases b with
    | failed e => rfl
    | parsed d =>
      cases s with
      | exn e => rfl
      | ok out =>
        simp only [McpHttpWrapper.handle_request]
        split <;> split <;> (try split) <;> rfl
  · obtain ⟨b, s⟩ := inp
    cases b with
    | failed e => exact Nat.zero_le 1
    | parsed d =>
      cases s with
      | exn e => exact Nat.le_refl 1
      | ok out =>
        simp only [McpHttpWrapper.handle_request]
        split <;> split <;> (try split) <;> exact Nat.le_refl 1
  · cases s with
    | exn e => rfl
    | ok out =>
      simp only [McpHttpWrapper.handle_request]
      split <;> split <;> (try split) <;> rfl

/-! ## Claims about the job-side client (C6–C8) -/

/-- `Except` bind on an error short-circuits. -/
theorem exceptBind_error {ε α β : Type} (e : ε) (f : α → Except ε β) :
    (Except.error e >>= f) = Except.error e := rfl

/-- `Except` bind on a success applies the continuation. -/
theorem exceptBind_ok {ε α β : Type} (a : α) (f : α → Except ε β) :
    (Except.ok a >>= f) = f a := rfl

/-- A variable `_env` treats as missing yields the raising error. -/
theorem env_missing_err (env : Env) (n : String) (h : missingEnv env n = true) :
    _env env n = .error (missingEnvMsg n) := by
  cases henv : env n with
  | none => simp [_env, henv]
  | some v =>
    have hv : v = "" := by simpa [missingEnv, henv] using h
    simp [_env, henv, hv]

/-- A variable `_env` accepts yields its value. -/
theorem env_present_ok (env : Env) (n : String) (h : missingEnv env n = false) :
    ∃ v, env n = some v ∧ _env env n = .ok v := by
  cases henv : env n with
  | none => simp [missingEnv, henv] at h
  | some v =>
    have hv : ¬v = "" := by simpa [missingEnv, henv] using h
    exact ⟨v, rfl, by simp [_env, henv, hv]⟩

/-- The `_env` error message contains the variable's name. -/
theorem name_in_missing_msg (v : String) : v.data <:+: (missingEnvMsg v).data :=
  ⟨"Missing required environment variable: ".data,
   ". This SDK must be run inside an IronClaw container.".data,
   by simp [missingEnvMsg, String.data_append]⟩

/-- C6: if any of the three required connection parameters is missing from
the environment, `call_tool` raises before any network request (zero
`urlopen` calls), and the raised message names the missing parameter. -/
theorem client_missing_env_raises (env : Env) (name : String)
    (params : Option (List (String × Json))) (timeout_secs : Option Int)
    (net : ToolRequest → NetOutcome)
    (h : requiredVars.any (missingEnv env) = true) :
    ∃ v ∈ requiredVars, missingEnv env v = true ∧
      call_tool env name params timeout_secs net = (.raised (missingEnvMsg v), 0) ∧
      v.data <:+: (missingEnvMsg v).data := by
  by_cases h1 : missingEnv env "IRONCLAW_ORCHESTRATOR_URL" = true
  · refine ⟨_, by simp [requiredVars], h1, ?_, name_in_missing_msg _⟩
    simp [call_tool, makeRequest, _base_url, env_missing_err env _ h1,
      exceptBind_error]
  · obtain ⟨v1, -, hok1⟩ := env_present_ok env _ (by simpa using h1)
    by_cases h2 : missingEnv env "IRONCLAW_JOB_ID" = true
    · refine ⟨_, by simp [requiredVars], h2, ?_, name_in_missing_msg _⟩
      simp [call_tool, makeRequest, _base_url, hok1, env_missing_err env _ h2,
        exceptBind_error, exceptBind_ok]
    · obtain ⟨v2, -, hok2⟩ := env_present_ok env _ (by simpa using h2)
      have h3 : missingEnv env "IRONCLAW_WORKER_TOKEN" = true := by
        simp only [requiredVars, List.any_cons, List.any_nil, Bool.or_eq_true] at h
        rcases h with h | h | h | h
        · exact absurd h h1
        · exact absurd h h2
        · exact h
        · exact absurd h (by simp)
      refine ⟨_, by simp [requiredVars], h3, ?_, name_in_missing_msg _⟩
      simp [call_tool, makeRequest, _base_url, _token, hok1, hok2,
        env_missing_err env _ h3, exceptBind_error, exceptBind_ok]

/-- The empty environment. -/
def env0 : Env := fun _ => none

/-- Witness for C6: with no connection parameters set, the call raises
with zero network requests and the message names a missing parameter. -/
theorem client_missing_env_raises_witness :
    ∃ v ∈ requiredVars, missingEnv env0 v = true ∧
      call_tool env0 "echo" (some [("message", .str "hello")]) none
        (fun _ => .urlError "unused") = (.raised (missingEnvMsg v), 0) ∧
      v.data <:+: (missingEnvMsg v).data :=
  client_missing_env_raises env0 "echo" (some [("message", .str "hello")]) none
    (fun _ => .urlError "unused") (by decide)

/-- C7: with the connection parameters present, the outgoing body's
`timeout_secs` equals `min(timeout_secs, 300)` when the argument is given
(so 500 becomes 300 and 30 stays 30), and the field is absent when the
argument is omitted. -/
theorem client_timeout_clamped (env : Env) (name : String)
    (params : Option (List (String × Json)))
    (h : requiredVars.all (fun v => !missingEnv env v) = true) :
    (∀ t : Int, ∃ req, makeRequest env name params (some t) = .ok req ∧
        req.body.timeout_secs = some (min t 300)) ∧
    (∃ req, makeRequest env name params none = .ok req ∧
        req.body.timeout_secs = none) := by
  simp only [requiredVars, List.all_cons, List.all_nil, Bool.and_eq_true,
    Bool.not_eq_true'] at h
  obtain ⟨hu, hj, ht, -⟩ := h
  obtain ⟨v1, -, hok1⟩ := env_present_ok env _ hu
  obtain ⟨v2, -, hok2⟩ := env_present_ok env _ hj
  obtain ⟨v3, -, hok3⟩ := env_present_ok env _ ht
  constructor
  · intro t
    refine ⟨⟨rstripSlash v1 ++ "/worker/" ++ v2 ++ "/tools/call",
      ⟨name, params.getD [], some (min t 300)⟩,
      "Bearer " ++ v3, urlopenTimeoutOf (some t)⟩, ?_, rfl⟩
    simp [makeRequest, _base_url, _token, hok1, hok2, hok3, exceptBind_ok]
  · refine ⟨⟨rstripSlash v1 ++ "/worker/" ++ v2 ++ "/tools/call",
      ⟨name, params.getD [], none⟩,
      "Bearer " ++ v3, urlopenTimeoutOf none⟩, ?_, rfl⟩
    simp [makeRequest, _base_url, _token, hok1, hok2, hok3, exceptBind_ok]

/-- The environment the orchestrator injects, with concrete values. -/
def env1 : Env := fun n =>
  if n = "IRONCLAW_ORCHESTRATOR_URL" then some "http://localhost:50051"
  else if n = "IRONCLAW_JOB_ID" then some "550e8400-e29b-41d4-a716-446655440000"
  else if n = "IRONCLAW_WORKER_TOKEN" then some "test-token-123"
  else none

/-- Witness for C7 at a fully populated environment. -/
theorem client_timeout_clamped_witness :
    (∀ t : Int, ∃ req, makeRequest env1 "echo" none (some t) = .ok req ∧
        req.body.timeout_secs = some (min t 300)) ∧
    (∃ req, makeRequest env1 "echo" none none = .ok req ∧
        req.body.timeout_secs = none) :=
  client_timeout_clamped env1 "echo" none (by decide)

/-- C8: once the request is built, the single network attempt's outcome is
classified exhaustively, with nothing swallowed and nothing retried (the
network-request count is always exactly 1 here): a transport failure
raises with the underlying reason; a non-2xx HTTP status raises with the
status code and body text; a 2xx body whose `success` is not truthy raises
naming the tool and the server-supplied error (or the default
`"unknown error"`); a 2xx body with truthy `success` returns the body's
`output` field (the empty string when absent). -/
theorem client_outcome_classified (env : Env) (name : String)
    (params : Option (List (String × Json))) (timeout_secs : Option Int)
    (net : ToolRequest → NetOutcome) (req : ToolRequest)
    (h : makeRequest env name params timeout_secs = .ok req) :
    (∀ reason, net req = .urlError reason →
      call_tool env name params timeout_secs net =
        (.raised ("Connection to orchestrator failed: " ++ reason), 1)) ∧
    (∀ code bodyText, net req = .httpError code bodyText →
      call_tool env name params timeout_secs net =
        (.raised ("Tool call failed: HTTP " ++ toString code ++ ": " ++ bodyText), 1)) ∧
    (∀ result, net req = .ok result →
      pyTruthy (lookupField result "success") = false →
      call_tool env name params timeout_secs net =
        (.raised ("Tool '" ++ name ++ "' failed: " ++ serverErrText result), 1)) ∧
    (∀ result, net req = .ok result →
      pyTruthy (lookupField result "success") = true →
      call_tool env name params timeout_secs net =
        (.returned ((lookupField result "output").getD (.str "")), 1)) :=
  ⟨fun reason hn => by simp [call_tool, h, hn],
   fun code bodyText hn => by simp [call_tool, h, hn],
   fun result hn hs => by simp [call_tool, h, hn, hs],
   fun result hn hs => by simp [call_tool, h, hn, hs]⟩

/-- Witness for C8: a concrete success round trip returning the `output`
field. -/
theorem client_outcome_classified_witness :
    call_tool env1 "echo" none none
      (fun _ => .ok [("success", .bool true), ("output", .str "hello")]) =
      (.returned (.str "hello"), 1) :=
  (client_outcome_classified env1 "echo" none none
      (fun _ => .ok [("success", .bool true), ("output", .str "hello")]) _ rfl).2.2.2
    [("success", .bool true), ("output", .str "hello")] rfl rfl

/-! ## Claim about the reference backend (C9) -/

/-- C9: any request whose `method` is a string other than `initialize`,
`tools/list` and `tools/call` is answered with a JSON-RPC error of code
-32601 and message `"Unknown method: <method>"`, with the inbound id
echoed (JSON null when absent). -/
theorem mock_unknown_method (s : MockMcpServer) (request : List (String × Json))
    (m : String)
    (hm : lookupField request "method" = some (.str m))
    (h1 : m ≠ "initialize") (h2 : m ≠ "tools/list") (h3 : m ≠ "tools/call") :
    s.handle_request request =
      .obj [("jsonrpc", .str "2.0"), ("id", (lookupField request "id").getD .null),
            ("error", .obj [("code", .num (-32601)),
                            ("message", .str ("Unknown method: " ++ m))])] := by
  simp [MockMcpServer.handle_request, hm, methodIs, isJStr, pyStrOpt, jsonToPyStr,
    h1, h2, h3]

/-- The request exercised by the repository's own error-handling test. -/
def req99 : List (String × Json) :=
  [("jsonrpc", .str "2.0"), ("method", .str "unknown_method"), ("id", .num 99)]

/-- Witness for C9: `method = "unknown_method"`, id 99. -/
theorem mock_unknown_method_witness :
    MockMcpServer.handle_request ⟨"semantic_scholar"⟩ req99 =
      .obj [("jsonrpc", .str "2.0"), ("id", .num 99),
            ("error", .obj [("code", .num (-32601)),
                            ("message", .str "Unknown method: unknown_method")])] :=
  mock_unknown_method ⟨"semantic_scholar"⟩ req99 "unknown_method" rfl
    (by decide) (by decide) (by decide)

/-! ## Claim about the auto-block updater (C10)

Helper lemmas about literal search (`findIdx`) and the pattern scan
(`scanPat`), leading to the idempotence analysis of `update_content`. -/

/-- A list is a Boolean prefix of itself followed by anything. -/
theorem pfx_of_append (p t : List Char) : p.isPrefixOf (p ++ t) = true :=
  List.isPrefixOf_iff_prefix.mpr (List.prefix_append p t)

/-- Boolean prefix gives the existence form. -/
theorem pfx_exists {p s : List Char} (h : p.isPrefixOf s = true) :
    ∃ t, s = p ++ t := by
  obtain ⟨t, ht⟩ := List.isPrefixOf_iff_prefix.mp h
  exact ⟨t, ht.symm⟩

/-- A prefix of the prefix region transfers across an append. -/
theorem pfx_mono {p x : List Char} (y : List Char)
    (h : p.isPrefixOf x = true) : p.isPrefixOf (x ++ y) = true := by
  obtain ⟨t, rfl⟩ := pfx_exists h
  rw [List.append_assoc]
  exact pfx_of_append p (t ++ y)

/-- A prefix that fits inside the left part of an append already lives
there. -/
theorem pfx_left {p x y : List Char} (h : p.isPrefixOf (x ++ y) = true)
    (hl : p.length ≤ x.length) : p.isPrefixOf x = true := by
  obtain ⟨t, ht⟩ := pfx_exists h
  have hx : List.take p.length x = p := by
    have h1 : List.take p.length (x ++ y) = List.take p.length x :=
      List.take_append_of_le_length hl
    rw [ht, List.take_left] at h1
    exact h1.symm
  have h2 := pfx_of_append (List.take p.length x) (List.drop p.length x)
  rw [List.take_append_drop, hx] at h2
  exact h2

/-- Character-level reading of a Boolean prefix. -/
theorem pfx_get {p s : List Char} (h : p.isPrefixOf s = true)
    {i : Nat} (hi : i < p.length) : s[i]? = p[i]? := by
  obtain ⟨t, rfl⟩ := pfx_exists h
  rw [List.getElem?_append]
  simp [hi]

/-- `findIdx` answers a position where the literal occurs. -/
theorem findIdx_some_pfx {p s : List Char} {n : Nat}
    (h : findIdx p s = some n) : p.isPrefixOf (List.drop n s) = true := by
  induction s generalizing n with
  | nil =>
    unfold findIdx at h
    by_cases hp : p.isEmpty
    · simp [hp] at h
      subst h
      simp [List.isPrefixOf, List.isEmpty_iff.mp hp]
    · simp [hp] at h
  | cons c tl ih =>
    unfold findIdx at h
    by_cases hc : p.isPrefixOf (c :: tl) = true
    · simp [hc] at h
      subst h
      simpa using hc
    · simp [hc] at h
      obtain ⟨n', hn', rfl⟩ := h
      rw [List.drop_succ_cons]
      exact ih hn'

/-- `findIdx` answers the leftmost position. -/
theorem findIdx_some_min {p s : List Char} {n : Nat}
    (h : findIdx p s = some n) :
    ∀ m, m < n → p.isPrefixOf (List.drop m s) = false := by
  induction s generalizing n with
  | nil =>
    unfold findIdx at h
    by_cases hp : p.isEmpty
    · simp [hp] at h
      intro m hm
      exact absurd hm (by omega)
    · simp [hp] at h
  | cons c tl ih =>
    unfold findIdx at h
    by_cases hc : p.isPrefixOf (c :: tl) = true
    · simp [hc] at h
      intro m hm
      exact absurd hm (by omega)
    · simp [hc] at h
      obtain ⟨n', hn', rfl⟩ := h
      intro m hm
      cases m with
      | zero =>
        rw [List.drop_zero]
        exact Bool.eq_false_iff.mpr hc
      | succ m' =>
        rw [List.drop_succ_cons]
        exact ih hn' m' (by omega)

/-- If the literal occurs somewhere, `findIdx` finds something. -/
theorem findIdx_isSome_of_pfx {p s : List Char} (hp : p ≠ []) {n : Nat}
    (h : p.isPrefixOf (List.drop n s) = true) :
    (findIdx p s).isSome = true := by
  induction s generalizing n with
  | nil =>
    rw [List.drop_nil] at h
    obtain ⟨t, ht⟩ := pfx_exists h
    cases p with
    | nil => exact absurd rfl hp
    | cons a as => simp at ht
  | cons c tl ih =>
    by_cases hc : p.isPrefixOf (c :: tl) = true
    · unfold findIdx
      simp [hc]
    · unfold findIdx
      simp only [hc, if_false]
      cases n with
      | zero => rw [List.drop_zero] at h; exact absurd h hc
      | succ n' =>
        rw [List.drop_succ_cons] at h
        have := ih h
        simpa using this

/-- A failed `findIdx` means the literal occurs nowhere. -/
theorem findIdx_none_pfx {p s : List Char} (hp : p ≠ [])
    (h : findIdx p s = none) (n : Nat) :
    p.isPrefixOf (List.drop n s) = false := by
  by_contra hb
  have hb' : p.isPrefixOf (List.drop n s) = true := by
    cases hq : p.isPrefixOf (List.drop n s) with
    | true => rfl
    | false => exact absurd hq hb
  have := findIdx_isSome_of_pfx hp hb'
  rw [h] at this
  simp at this

/-- `findIdx` computes the leftmost occurrence. -/
theorem findIdx_eq_of {p s : List Char} {n : Nat}
    (h : p.isPrefixOf (List.drop n s) = true)
    (hmin : ∀ m, m < n → p.isPrefixOf (List.drop m s) = false) :
    findIdx p s = some n := by
  induction s generalizing n with
  | nil =>
    rw [List.drop_nil] at h
    obtain ⟨t, ht⟩ := pfx_exists h
    cases p with
    | nil =>
      cases n with
      | zero => rfl
      | succ n' =>
        have := hmin 0 (by omega)
        simp [List.isPrefixOf] at this
    | cons a as => simp at ht
  | cons c tl ih =>
    cases n with
    | zero =>
      rw [List.drop_zero] at h
      unfold findIdx
      simp [h]
    | succ n' =>
      have hc : p.isPrefixOf (c :: tl) = false := by
        have := hmin 0 (by omega)
        rwa [List.drop_zero] at this
      unfold findIdx
      rw [hc]
      simp only [Bool.false_eq_true, if_false]
      rw [List.drop_succ_cons] at h
      have hmin' : ∀ m, m < n' → p.isPrefixOf (List.drop m tl) = false := by
        intro m hm
        have := hmin (m + 1) (by omega)
        rwa [List.drop_succ_cons] at this
      rw [ih h hmin']
      rfl

/-- If a `scanPat` match starts at `a`, then `START` occurs at `a` and an
`END_MARKER` occurrence follows it. -/
theorem scanPat_some_pfx {s : List Char} {a e : Nat}
    (h : scanPat s = some (a, e)) :
    START.isPrefixOf (List.drop a s) = true ∧
    (findIdx ENDM (List.drop (a + START.length) s)).isSome = true := by
  induction s generalizing a e with
  | nil => simp [scanPat] at h
  | cons c tl ih =>
    unfold scanPat at h
    by_cases hc : START.isPrefixOf (c :: tl) = true
    · rw [if_pos hc] at h
      cases hf : findIdx ENDM (List.drop START.length (c :: tl)) with
      | some j =>
        rw [hf] at h
        simp only [Option.some.injEq, Prod.mk.injEq] at h
        obtain ⟨rfl, rfl⟩ := h
        refine ⟨by simpa using hc, ?_⟩
        rw [Nat.zero_add, hf]
        rfl
      | none =>
        rw [hf] at h
        simp only [Option.map_eq_some'] at h
        obtain ⟨⟨a', e'⟩, hs', ha'⟩ := h
        simp only [Prod.mk.injEq] at ha'
        obtain ⟨rfl, rfl⟩ := ha'
        obtain ⟨h1, h2⟩ := ih hs'
        refine ⟨by rwa [List.drop_succ_cons], ?_⟩
        have harith : a' + 1 + START.length = (a' + START.length) + 1 := by omega
        rw [harith, List.drop_succ_cons]
        exact h2
    · rw [if_neg hc] at h
      simp only [Option.map_eq_some'] at h
      obtain ⟨⟨a', e'⟩, hs', ha'⟩ := h
      simp only [Prod.mk.injEq] at ha'
      obtain ⟨rfl, rfl⟩ := ha'
      obtain ⟨h1, h2⟩ := ih hs'
      refine ⟨by rwa [List.drop_succ_cons], ?_⟩
      have harith : a' + 1 + START.length = (a' + START.length) + 1 := by omega
      rw [harith, List.drop_succ_cons]
      exact h2

/-- A `scanPat` match starting at `a` is leftmost: below `a` there is no
position carrying both a `START` occurrence and a later `END_MARKER`. -/
theorem scanPat_some_min {s : List Char} {a e : Nat}
    (h : scanPat s = some (a, e)) :
    ∀ m, m < a → START.isPrefixOf (List.drop m s) = true →
      (findIdx ENDM (List.drop (m + START.length) s)).isSome = true → False := by
  induction s generalizing a e with
  | nil => simp [scanPat] at h
  | cons c tl ih =>
    unfold scanPat at h
    by_cases hc : START.isPrefixOf (c :: tl) = true
    · rw [if_pos hc] at h
      cases hf : findIdx ENDM (List.drop START.length (c :: tl)) with
      | some j =>
        rw [hf] at h
        simp only [Option.some.injEq, Prod.mk.injEq] at h
        obtain ⟨rfl, rfl⟩ := h
        intro m hm
        exact absurd hm (by omega)
      | none =>
        rw [hf] at h
        simp only [Option.map_eq_some'] at h
        obtain ⟨⟨a', e'⟩, hs', ha'⟩ := h
        simp only [Prod.mk.injEq] at ha'
        obtain ⟨rfl, rfl⟩ := ha'
        intro m hm hp hfind
        cases m with
        | zero =>
          rw [Nat.zero_add] at hfind
          rw [hf] at hfind
          simp at hfind
        | succ m' =>
          rw [List.drop_succ_cons] at hp
          have harith : m' + 1 + START.length = (m' + START.length) + 1 := by omega
          rw [harith, List.drop_succ_cons] at hfind
          exact ih hs' m' (by omega) hp hfind
    · rw [if_neg hc] at h
      simp only [Option.map_eq_some'] at h
      obtain ⟨⟨a', e'⟩, hs', ha'⟩ := h
      simp only [Prod.mk.injEq] at ha'
      obtain ⟨rfl, rfl⟩ := ha'
      intro m hm hp hfind
      cases m with
      | zero =>
        rw [List.drop_zero] at hp
        exact absurd hp hc
      | succ m' =>
        rw [List.drop_succ_cons] at hp
        have harith : m' + 1 + START.length = (m' + START.length) + 1 := by omega
        rw [harith, List.drop_succ_cons] at hfind
        exact ih hs' m' (by omega) hp hfind

/-- Direct computation of `scanPat` when `START` heads the string and an
`END_MARKER` occurrence is known. -/
theorem scanPat_eq_some_of {s : List Char} {j : Nat}
    (h1 : START.isPrefixOf s = true)
    (h2 : findIdx ENDM (List.drop START.length s) = some j) :
    scanPat s = some (0,
      if (List.drop (START.length + j + ENDM.length) s).head? = some '\n'
      then START.length + j + ENDM.length + 1
      else START.length + j + ENDM.length) := by
  cases s with
  | nil => exact absurd h1 (by decide)
  | cons c tl =>
    unfold scanPat
    rw [if_pos h1, h2]

/-- With no `START` occurrence strictly inside a left part `A`, scanning
`A ++ s` shifts the scan of `s` by `A.length`. -/
theorem scanPat_shift {A s : List Char}
    (hA : ∀ m, m < A.length → START.isPrefixOf (List.drop m (A ++ s)) = false) :
    scanPat (A ++ s) =
      (scanPat s).map (fun p => (p.1 + A.length, p.2 + A.length)) := by
  induction A with
  | nil =>
    simp only [List.nil_append]
    cases hs : scanPat s <;> simp [hs]
  | cons a A' ih =>
    have h0 : START.isPrefixOf (a :: (A' ++ s)) = false := by
      have := hA 0 (by simp)
      rwa [List.drop_zero] at this
    rw [List.cons_append]
    simp only [scanPat]
    rw [h0]
    simp only [Bool.false_eq_true, if_false]
    have hA' : ∀ m, m < A'.length → START.isPrefixOf (List.drop m (A' ++ s)) = false := by
      intro m hm
      have := hA (m + 1) (by simp; omega)
      rwa [List.cons_append, List.drop_succ_cons] at this
    rw [ih hA']
    cases hs : scanPat s with
    | none => simp [hs]
    | some p => simp [hs, Nat.add_assoc]

/-- With no `START` occurrence at all, `scanPat` finds nothing. -/
theorem scanPat_none_of_nostart {s : List Char}
    (h : ∀ m, START.isPrefixOf (List.drop m s) = false) : scanPat s = none := by
  induction s with
  | nil => rfl
  | cons c tl ih =>
    have h0 : START.isPrefixOf (c :: tl) = false := by
      have := h 0
      rwa [List.drop_zero] at this
    simp only [scanPat]
    rw [h0]
    simp only [Bool.false_eq_true, if_false]
    have htl : ∀ m, START.isPrefixOf (List.drop m tl) = false := by
      intro m
      have := h (m + 1)
      rwa [List.drop_succ_cons] at this
    rw [ih htl]
    rfl

/-- `'<'` occurs in `START` only at position 0. -/
theorem start_lt_uniq {o : Nat} (h : START[o]? = some '<') : o = 0 := by
  by_contra ho
  by_cases hlt : o < START.length
  · have hb : ∀ o', o' < START.length → o' ≠ 0 → START[o']? ≠ some '<' := by decide
    exact hb o hlt ho h
  · rw [List.getElem?_eq_none (by omega)] at h
    simp at h

/-- `START` contains no newline. -/
theorem newline_not_in_start : '\n' ∉ START := by decide

/-- The text between the markers contains no `'<'` when neither the sha
nor the PR number does. -/
theorem lt_not_in_autoMid {sha pr : List Char} (hsha : '<' ∉ sha)
    (hpr : '<' ∉ pr) : '<' ∉ autoMid sha pr := by
  intro hmem
  simp only [autoMid, List.mem_append] at hmem
  rcases hmem with (((h | h) | h) | h) | h
  · exact absurd h (by decide)
  · exact hpr h
  · exact absurd h (by decide)
  · exact hsha h
  · exact absurd h (by decide)

/-- In `mid ++ ENDM ++ X` with no `'<'` in `mid`, the leftmost `END_MARKER`
occurrence is exactly at `mid.length`. -/
theorem endm_at_mid {mid : List Char} (X : List Char) (hmid : '<' ∉ mid) :
    findIdx ENDM (mid ++ (ENDM ++ X)) = some mid.length := by
  apply findIdx_eq_of
  · rw [List.drop_left]
    exact pfx_of_append ENDM X
  · intro m hm
    by_contra hb
    have hp : ENDM.isPrefixOf (List.drop m (mid ++ (ENDM ++ X))) = true := by
      cases hq : ENDM.isPrefixOf (List.drop m (mid ++ (ENDM ++ X))) with
      | true => rfl
      | false => exact absurd hq hb
    have h0 : (List.drop m (mid ++ (ENDM ++ X)))[0]? = ENDM[0]? :=
      pfx_get hp (by decide)
    rw [List.getElem?_drop] at h0
    have hELt : ENDM[0]? = some '<' := by decide
    rw [hELt] at h0
    rw [List.getElem?_append, if_pos (by omega)] at h0
    have : '<' ∈ mid := List.getElem?_mem (by simpa using h0)
    exact hmid this

/-- `build_auto_block` decomposed around its markers. -/
theorem block_decomp (sha pr : List Char) :
    build_auto_block sha pr = START ++ (autoMid sha pr ++ (ENDM ++ ['\n'])) := by
  simp [build_auto_block, List.append_assoc]

/-- The length of the block. -/
theorem block_length (sha pr : List Char) :
    (build_auto_block sha pr).length =
      START.length + (autoMid sha pr).length + ENDM.length + 1 := by
  simp [build_auto_block]
  omega

/-- Scanning a string that begins with a freshly built block matches the
whole block (and nothing before it). -/
theorem scanPat_block {sha pr : List Char} (B : List Char)
    (hsha : '<' ∉ sha) (hpr : '<' ∉ pr) :
    scanPat (build_auto_block sha pr ++ B) =
      some (0, (build_auto_block sha pr).length) := by
  have hmid := lt_not_in_autoMid hsha hpr
  have hs : build_auto_block sha pr ++ B =
      START ++ (autoMid sha pr ++ (ENDM ++ ('\n' :: B))) := by
    rw [block_decomp]
    simp [List.append_assoc]
  rw [hs]
  have h1 : START.isPrefixOf
      (START ++ (autoMid sha pr ++ (ENDM ++ ('\n' :: B)))) = true :=
    pfx_of_append _ _
  have h2 : findIdx ENDM
      (List.drop START.length
        (START ++ (autoMid sha pr ++ (ENDM ++ ('\n' :: B))))) =
      some (autoMid sha pr).length := by
    rw [List.drop_left]
    exact endm_at_mid ('\n' :: B) hmid
  rw [scanPat_eq_some_of h1 h2]
  have hgroup : START ++ (autoMid sha pr ++ (ENDM ++ ('\n' :: B))) =
      (START ++ autoMid sha pr ++ ENDM) ++ ('\n' :: B) := by
    simp [List.append_assoc]
  have hlen : (START ++ autoMid sha pr ++ ENDM).length =
      START.length + (autoMid sha pr).length + ENDM.length := by
    simp [List.length_append]
    omega
  have hdrop : List.drop (START.length + (autoMid sha pr).length + ENDM.length)
      (START ++ (autoMid sha pr ++ (ENDM ++ ('\n' :: B)))) = '\n' :: B := by
    rw [hgroup, ← hlen, List.drop_left]
  rw [hdrop, block_length]
  simp

/-- Core lemma: `update_content` leaves `A ++ block ++ B` unchanged
whenever no `START` occurrence begins strictly inside `A`. -/
theorem update_content_fixed {sha pr A B : List Char}
    (hsha : '<' ∉ sha) (hpr : '<' ∉ pr)
    (hA : ∀ m, m < A.length →
      START.isPrefixOf (List.drop m (A ++ (build_auto_block sha pr ++ B))) = false) :
    update_content (A ++ (build_auto_block sha pr ++ B)) sha pr =
      A ++ (build_auto_block sha pr ++ B) := by
  have hscan : scanPat (A ++ (build_auto_block sha pr ++ B)) =
      some (A.length, (build_auto_block sha pr).length + A.length) := by
    rw [scanPat_shift hA, scanPat_block B hsha hpr]
    simp
  have htake : List.take A.length (A ++ (build_auto_block sha pr ++ B)) = A :=
    List.take_left A _
  have hdrop : List.drop ((build_auto_block sha pr).length + A.length)
      (A ++ (build_auto_block sha pr ++ B)) = B := by
    have hgroup : A ++ (build_auto_block sha pr ++ B) =
        (A ++ build_auto_block sha pr) ++ B := by
      simp [List.append_assoc]
    have hlen : (A ++ build_auto_block sha pr).length =
        (build_auto_block sha pr).length + A.length := by
      simp [List.length_append]
      omega
    rw [hgroup, ← hlen, List.drop_left]
  simp only [update_content, findPat, hscan]
  rw [htake, hdrop]
  simp [List.append_assoc]

/-- Rejoining the kept-ends lines gives back the original text. -/
theorem splitlinesAux_flatten (acc s : List Char) :
    (splitlinesAux acc s).flatten = acc.reverse ++ s := by
  induction acc, s using splitlinesAux.induct <;> (unfold splitlinesAux; simp_all)

/-- `"".join(content.splitlines(keepends=True)) == content`. -/
theorem splitlinesKeep_flatten (s : List Char) :
    (splitlinesKeep s).flatten = s := by
  simpa using splitlinesAux_flatten [] s

/-- The title-scan loop answers an index inside the list. -/
theorem findTitleIndex_lt {L : List (List Char)} {ti : Nat}
    (h : findTitleIndex L = some ti) : ti < L.length := by
  induction L generalizing ti with
  | nil => simp [findTitleIndex] at h
  | cons l rest ih =>
    unfold findTitleIndex at h
    by_cases hl : ("# ".data).isPrefixOf l = true
    · simp [hl] at h
      subst h
      simp
    · simp [hl] at h
      obtain ⟨ti', hti', rfl⟩ := h
      have := ih hti'
      simp
      omega

/-- `list.insert(k, x)` in take/drop form (Python clamps `k` to the length;
here `k ≤ length` always holds at the call site). -/
theorem insertIdx_take_drop {α : Type} (k : Nat) (x : α) (L : List α)
    (hk : k ≤ L.length) :
    List.insertIdx k x L = L.take k ++ x :: L.drop k := by
  induction k generalizing L with
  | zero => simp [List.insertIdx_zero]
  | succ k' ih =>
    cases L with
    | nil => simp at hk
    | cons b L' =>
      rw [List.insertIdx_succ_cons]
      simp only [List.length_cons] at hk
      rw [ih L' (by omega)]
      simp

/-- `START` occurring in a dropped suffix forces the position inside the
list. -/
theorem lt_len_of_start_pfx {s : List Char} {a : Nat}
    (h : START.isPrefixOf (List.drop a s) = true) : a < s.length := by
  by_contra hb
  rw [List.drop_eq_nil_of_le (by omega)] at h
  exact absurd h (by decide)

/-- The block begins with `'<'`. -/
theorem block_head (sha pr : List Char) (B : List Char) :
    (build_auto_block sha pr ++ B)[0]? = some '<' := by
  rw [block_decomp]
  rw [List.append_assoc, List.getElem?_append, if_pos (by decide)]
  decide

/-- A Boolean that is not false is true. -/
theorem bool_ne_false {b : Bool} (h : ¬b = false) : b = true := by
  cases b with
  | true => rfl
  | false => exact absurd rfl h

/-- Substitution case: when the pattern matches, the result decomposes as
`A ++ block ++ B` with no `START` occurrence beginning inside `A`. -/
theorem match_shape {content : List Char} (sha pr : List Char) {a e : Nat}
    (hf : scanPat content = some (a, e)) :
    ∃ A B, update_content content sha pr = A ++ (build_auto_block sha pr ++ B) ∧
      ∀ m, m < A.length →
        START.isPrefixOf
          (List.drop m (A ++ (build_auto_block sha pr ++ B))) = false := by
  obtain ⟨hpa, hfindA⟩ := scanPat_some_pfx hf
  have halt : a < content.length := lt_len_of_start_pfx hpa
  have hlenA : (content.take a).length = a := by
    rw [List.length_take]
    omega
  refine ⟨content.take a, content.drop e, ?_, ?_⟩
  · simp only [update_content, findPat, hf]
    simp [List.append_assoc]
  · intro m hm
    rw [hlenA] at hm
    by_contra hb
    have hp := bool_ne_false hb
    by_cases hc26 : m + START.length ≤ a
    · have hdropa : List.drop m
          (content.take a ++ (build_auto_block sha pr ++ content.drop e)) =
          List.drop m (content.take a) ++ (build_auto_block sha pr ++ content.drop e) :=
        List.drop_append_of_le_length (by omega)
      rw [hdropa] at hp
      have hlen2 : START.length ≤ (List.drop m (content.take a)).length := by
        rw [List.length_drop, hlenA]
        omega
      have hpJ := pfx_left hp hlen2
      rw [List.drop_take a m content] at hpJ
      have hpc : START.isPrefixOf (List.drop m content) = true := by
        have h2 := pfx_mono (List.drop (a - m) (List.drop m content)) hpJ
        rwa [List.take_append_drop] at h2
      obtain ⟨j, hj⟩ := Option.isSome_iff_exists.mp hfindA
      have hpe := findIdx_some_pfx hj
      rw [List.drop_drop] at hpe
      have harith : a + START.length + j = m + START.length + (a - m + j) := by
        omega
      rw [harith, ← List.drop_drop] at hpe
      have hsome := findIdx_isSome_of_pfx (by decide) hpe
      exact scanPat_some_min hf m hm hpc hsome
    · have hup : (content.take a ++ (build_auto_block sha pr ++ content.drop e))[a]? =
          some '<' := by
        rw [List.getElem?_append_right (by omega), hlenA, Nat.sub_self]
        exact block_head sha pr (content.drop e)
      have hg := pfx_get hp (show a - m < START.length by omega)
      rw [List.getElem?_drop] at hg
      have hma : m + (a - m) = a := by omega
      rw [hma, hup] at hg
      have h0 := start_lt_uniq hg.symm
      omega

/-- A left flank of the form `J ++ "\n"` with `J` a prefix of a
`START`-free text admits no `START` occurrence beginning inside it. -/
theorem hA_newline_flank {J Z content : List Char}
    (hpre : ∃ D, J ++ D = content)
    (hc : ∀ m, START.isPrefixOf (List.drop m content) = false) :
    ∀ m, m < (J ++ ['\n']).length →
      START.isPrefixOf (List.drop m ((J ++ ['\n']) ++ Z)) = false := by
  obtain ⟨D, hJD⟩ := hpre
  intro m hm
  by_contra hb
  have hp := bool_ne_false hb
  have hmJ : m ≤ J.length := by
    simp [List.length_append] at hm
    omega
  have hnl : ((J ++ ['\n']) ++ Z)[J.length]? = some '\n' := by
    rw [List.getElem?_append, if_pos (by simp),
      List.getElem?_append_right (Nat.le_refl _), Nat.sub_self]
    rfl
  by_cases hcase : m = J.length
  · subst hcase
    have hg := pfx_get hp (show 0 < START.length by decide)
    rw [List.getElem?_drop, Nat.add_zero, hnl] at hg
    have h0 : START[0]? = some '<' := by decide
    rw [h0] at hg
    simp at hg
  · have hmlt : m < J.length := by omega
    by_cases h26 : m + START.length ≤ J.length
    · have hdm : List.drop m ((J ++ ['\n']) ++ Z) =
          List.drop m J ++ (['\n'] ++ Z) := by
        rw [List.append_assoc]
        exact List.drop_append_of_le_length (by omega)
      rw [hdm] at hp
      have hlen2 : START.length ≤ (List.drop m J).length := by
        rw [List.length_drop]
        omega
      have hpJ := pfx_left hp hlen2
      have hpc : START.isPrefixOf (List.drop m content) = true := by
        rw [← hJD, List.drop_append_of_le_length (by omega)]
        exact pfx_mono D hpJ
      have h2 := hc m
      rw [hpc] at h2
      simp at h2
    · have hg := pfx_get hp (show J.length - m < START.length by omega)
      rw [List.getElem?_drop] at hg
      have hma : m + (J.length - m) = J.length := by omega
      rw [hma, hnl] at hg
      exact newline_not_in_start (List.getElem?_mem hg.symm)

/-- Joining after a list `insert` in take/drop form. -/
theorem insert_join_shape (content block : List Char) (k : Nat)
    (hk : k ≤ (splitlinesKeep content).length) :
    (List.insertIdx k ('\n' :: (block ++ ['\n'])) (splitlinesKeep content)).flatten =
      (((splitlinesKeep content).take k).flatten ++ ['\n']) ++
        (block ++ ('\n' :: ((splitlinesKeep content).drop k).flatten)) := by
  rw [insertIdx_take_drop _ _ _ hk, List.flatten_append, List.flatten_cons]
  simp [List.append_assoc]

/-- Insertion case: when `START` occurs nowhere in the content, the
inserted result decomposes as `A ++ block ++ B` with no `START` occurrence
beginning inside `A`. -/
theorem insert_shape {content : List Char} (sha pr : List Char)
    (hc : ∀ m, START.isPrefixOf (List.drop m content) = false) :
    ∃ A B, insert_block_after_title content (build_auto_block sha pr) =
        A ++ (build_auto_block sha pr ++ B) ∧
      ∀ m, m < A.length →
        START.isPrefixOf
          (List.drop m (A ++ (build_auto_block sha pr ++ B))) = false := by
  cases hti : findTitleIndex (splitlinesKeep content) with
  | none =>
    by_cases hce : content.isEmpty
    · refine ⟨[], [], ?_, ?_⟩
      · simp only [insert_block_after_title, hti]
        simp [hce]
      · intro m hm
        simp at hm
    · refine ⟨[], '\n' :: content, ?_, ?_⟩
      · simp only [insert_block_after_title, hti]
        simp [hce]
      · intro m hm
        simp at hm
  | some ti =>
    have hti' : ti < (splitlinesKeep content).length := findTitleIndex_lt hti
    obtain ⟨K, hKdef⟩ : ∃ K,
        (if ti + 1 < (splitlinesKeep content).length ∧
            isBlankLine ((splitlinesKeep content).getD (ti + 1) []) then ti + 2
         else ti + 1) = K := ⟨_, rfl⟩
    have hK : K ≤ (splitlinesKeep content).length := by
      rw [← hKdef]
      split
      · next h => have h1 := h.1; omega
      · omega
    have hJD : ((splitlinesKeep content).take K).flatten ++
        ((splitlinesKeep content).drop K).flatten = content := by
      rw [← List.flatten_append, List.take_append_drop, splitlinesKeep_flatten]
    refine ⟨((splitlinesKeep content).take K).flatten ++ ['\n'],
      '\n' :: ((splitlinesKeep content).drop K).flatten, ?_, ?_⟩
    · simp only [insert_block_after_title, hti, hKdef]
      exact insert_join_shape content _ K hK
    · exact hA_newline_flank ⟨_, hJD⟩ hc

/-- C10 (amended): `update_content` is idempotent for every sync sha and
PR number containing no `'<'` character and every content in which either
the auto-block pattern matches or the start marker does not occur at all.
(The counterexample below shows the unrestricted claim fails when the
content has a start marker with no end marker after it.) -/
theorem update_content_idem (content sha pr : List Char)
    (hsha : '<' ∉ sha) (hpr : '<' ∉ pr)
    (hc : (findPat content).isSome = true ∨ findIdx START content = none) :
    update_content (update_content content sha pr) sha pr =
      update_content content sha pr := by
  rcases hc with hmatch | hnone
  · obtain ⟨⟨a, e⟩, hf⟩ := Option.isSome_iff_exists.mp hmatch
    obtain ⟨A, B, hr, hA⟩ := match_shape sha pr hf
    rw [hr]
    exact update_content_fixed hsha hpr hA
  · have hc' : ∀ m, START.isPrefixOf (List.drop m content) = false :=
      fun m => findIdx_none_pfx (by decide) hnone m
    have hscan : scanPat content = none := scanPat_none_of_nostart hc'
    have hfirst : update_content content sha pr =
        insert_block_after_title content (build_auto_block sha pr) := by
      simp only [update_content, findPat, hscan]
    obtain ⟨A, B, hr, hA⟩ := insert_shape sha pr hc'
    rw [hfirst, hr]
    exact update_content_fixed hsha hpr hA

/-- A typical markdown file without markers. -/
def fpContent : List Char := "# Title\n\nHello\n".data

/-- A well-formed commit sha (hex: no `'<'`). -/
def fpSha : List Char := "abc123".data

/-- A PR number (digits: no `'<'`). -/
def fpPr : List Char := "42".data

/-- Witness for C10 (amended) at a concrete marker-free file. -/
theorem update_content_idem_witness :
    update_content (update_content fpContent fpSha fpPr) fpSha fpPr =
      update_content fpContent fpSha fpPr :=
  update_content_idem fpContent fpSha fpPr (by decide) (by decide)
    (Or.inr (by decide))

/-- A file containing a stray `START_MARKER` with no `END_MARKER`. -/
def strayContent : List Char := "<!-- parity:auto:start -->\n# T\n".data

/-- C10 counterexample: on a content with a stray start marker and no end
marker, the first run inserts a block below the title, and the second run's
pattern then matches from the stray marker to the inserted block's end
marker, rewriting the file again — `update_content` is not idempotent. -/
theorem update_content_idem_cex :
    update_content (update_content strayContent fpSha fpPr) fpSha fpPr ≠
      update_content strayContent fpSha fpPr := by
  decide
